import Mathlib

set_option maxRecDepth 8000

/-!
Verification of the where-filter expression parser and related validation
logic of the `dbt-semantic-interfaces` repository, via a shallow embedding
in Lean 4.

The embedding covers:
* the naming keywords module (`naming/keywords.py`), translated directly;
* the where-filter call-parameter-set extraction (the parameter-set factory,
  the per-expression parser, and the filter-intersection aggregator), whose
  implementation files are not part of the provided sources — only their
  tests are — and which are therefore modelled from the specification;
* the `PrimaryEntityRule` validation rule (`validations/primary_entity.py`),
  translated directly.
-/

namespace DbtSemanticInterfaces

/-! ## Keywords (from `naming/keywords.py`) -/

/-- A double underscore used as a separator. -/
def DUNDER : String := "__"

/-- The name for the time dimension that metrics are tabulated / plotted. -/
def METRIC_TIME_ELEMENT_NAME : String := "metric_time"

/-- Returns true if the given element name corresponds to metric time. -/
def is_metric_time_name (element_name : String) : Bool :=
  element_name == METRIC_TIME_ELEMENT_NAME

/-! ## Reference types and call parameter sets (data model) -/

/-- Reference to an entity, identified by its element name. -/
structure EntityReference where
  element_name : String
deriving DecidableEq, Repr

/-- Reference to a dimension, identified by its element name. -/
structure DimensionReference where
  element_name : String
deriving DecidableEq, Repr

/-- Reference to a time dimension, identified by its element name. -/
structure TimeDimensionReference where
  element_name : String
deriving DecidableEq, Repr

/-- The fixed vocabulary of time granularities (day/week/month/quarter/year). -/
inductive TimeGranularity where
  | day
  | week
  | month
  | quarter
  | year
deriving DecidableEq, Repr

/-- One parsed `Dimension(...)` macro invocation. -/
structure DimensionCallParameterSet where
  dimension_reference : DimensionReference
  entity_path : List EntityReference
deriving DecidableEq, Repr

/-- One parsed `TimeDimension(...)` (or `Dimension(...).grain(...)`) macro
invocation. -/
structure TimeDimensionCallParameterSet where
  time_dimension_reference : TimeDimensionReference
  entity_path : List EntityReference
  time_granularity : Option TimeGranularity
deriving DecidableEq, Repr

/-- One parsed `Entity(...)` macro invocation. -/
structure EntityCallParameterSet where
  entity_reference : EntityReference
  entity_path : List EntityReference
deriving DecidableEq, Repr

/-- Every call parameter set extracted from one expression, grouped by kind,
order-preserving within each kind. -/
structure FilterCallParameterSets where
  dimension_call_parameter_sets : List DimensionCallParameterSet := []
  time_dimension_call_parameter_sets : List TimeDimensionCallParameterSet := []
  entity_call_parameter_sets : List EntityCallParameterSet := []
deriving DecidableEq, Repr

/-! ## Name splitting

Python's `str.split(DUNDER)` over the `__` separator, embedded as a
structural recursion over the character list of the string. -/

/-- Helper for `split_on_dunder`: `acc` holds the (reversed) characters of the
current segment. A `__` occurrence ends the current segment; splitting is
greedy left-to-right, as in Python's `str.split`. -/
def splitDunderAux (acc : List Char) : List Char → List (List Char)
  | [] => [acc.reverse]
  | '_' :: '_' :: rest => acc.reverse :: splitDunderAux [] rest
  | c :: rest => splitDunderAux (c :: acc) rest

/-- Split a string on the `__` path separator (Python `name.split(DUNDER)`). -/
def split_on_dunder (s : String) : List String :=
  (splitDunderAux [] s.data).map String.mk

/-! ## Parameter set factory

Modelled from the spec: the parameter-set factory module
(`parsing/where_filter/parameter_set_factory.py`) is not among the provided
source files; the definitions below follow §4.1–§4.3 and §7 of the
specification, with concrete message texts taken from the tests where the
tests pin them. -/

/-- Modelled from the spec: the name-format error for a composite name with
too many path segments; the message must include the offending raw name
(the missing `ParameterSetFactory._exception_message_for_incorrect_format`). -/
def exception_message_for_incorrect_format (element_name : String) : String :=
  "Name is in an incorrect format: " ++ "'" ++ element_name ++ "'" ++
    ". It should be of the form: <primary entity name>__<dimension_name>"

/-- Modelled from the spec: the reserved-usage error raised when the reserved
time-axis name is used via `Dimension(...)`; the message instructs the author
to use `TimeDimension` (message fragment pinned by the tests). -/
def metric_time_usage_error_message : String :=
  METRIC_TIME_ELEMENT_NAME ++
    " is a reserved time dimension, so it should be referenced using TimeDimension"

/-- Modelled from the spec: the entity-name-format error raised when an entity
macro name contains the path separator (message pinned by the tests). -/
def entity_format_error_message (entity_name : String) : String :=
  "Entity name is in an incorrect format: " ++ "'" ++ entity_name ++ "'"

/-- Modelled from the spec (§4.1 Naming Decoder): split the raw name on the
path separator into (leaf element name, implied entity hop). One segment:
no implied hop. Two segments: segment 0 is the implied hop, segment 1 the
leaf. Three or more segments: a name-format error. The reserved time-axis
name is never split. -/
def parse_name (name : String) : Except String (String × Option String) :=
  if is_metric_time_name name then
    .ok (name, none)
  else
    match split_on_dunder name with
    | [leaf] => .ok (leaf, none)
    | [hop, leaf] => .ok (leaf, some hop)
    | _ => .error (exception_message_for_incorrect_format name)

/-- Modelled from the spec (§4.2 Entity Path Composer): the final entity path
is the explicit entity-path argument followed by the implied hop, in that
order. -/
def composed_entity_path (explicit : List String) (implied : Option String) :
    List EntityReference :=
  (explicit ++ implied.toList).map EntityReference.mk

/-- Modelled from the spec (§4.3): parse a granularity literal
case-insensitively against the fixed granularity vocabulary; an unrecognized
literal fails with an invalid-granularity error. Lower-casing is embedded
character-wise (Python `str.lower` restricted to ASCII letters, which is all
the vocabulary contains). -/
def char_lower (c : Char) : Char :=
  if 65 ≤ c.toNat ∧ c.toNat ≤ 90 then Char.ofNat (c.toNat + 32) else c

/-- ASCII lower-casing of a string, character by character. -/
def str_lower (s : String) : String :=
  ⟨s.data.map char_lower⟩

/-- Modelled from the spec: match a granularity literal, case-insensitively,
against day/week/month/quarter/year. -/
def parse_granularity (s : String) : Except String TimeGranularity :=
  if str_lower s == "day" then .ok .day
  else if str_lower s == "week" then .ok .week
  else if str_lower s == "month" then .ok .month
  else if str_lower s == "quarter" then .ok .quarter
  else if str_lower s == "year" then .ok .year
  else .error ("Invalid granularity: " ++ "'" ++ s ++ "'")

/-- Modelled from the spec (§4.3): build a `DimensionCallParameterSet` from a
`Dimension(name, entity_path=...)` call. The reserved time-axis name fails
with the reserved-usage error; otherwise the name is decoded and the entity
path composed. -/
def create_dimension (name : String) (entity_path : List String) :
    Except String DimensionCallParameterSet :=
  if is_metric_time_name name then
    .error metric_time_usage_error_message
  else do
    let p ← parse_name name
    .ok { dimension_reference := ⟨p.1⟩,
          entity_path := composed_entity_path entity_path p.2 }

/-- Modelled from the spec (§4.3): build a `TimeDimensionCallParameterSet`
from a `TimeDimension(name, granularity, entity_path=...)` call or a
`Dimension(name, entity_path=...).grain(granularity)` chain. A missing
granularity yields `none`. -/
def create_time_dimension (name : String) (granularity : Option String)
    (entity_path : List String) : Except String TimeDimensionCallParameterSet := do
  let p ← parse_name name
  let g ← match granularity with
    | none => .ok (none : Option TimeGranularity)
    | some s => (parse_granularity s).map some
  .ok { time_dimension_reference := ⟨p.1⟩,
        entity_path := composed_entity_path entity_path p.2,
        time_granularity := g }

/-- Whether a character list contains an occurrence of the `__` separator. -/
def contains_dunder : List Char → Bool
  | [] => false
  | '_' :: '_' :: _ => true
  | _ :: rest => contains_dunder rest

/-- Modelled from the spec (§4.3): build an `EntityCallParameterSet` from an
`Entity(name, entity_path=...)` call. The raw name is not split; a name
containing the separator fails with the entity-name-format error; the entity
path comes only from the explicit argument. -/
def create_entity (name : String) (entity_path : List String) :
    Except String EntityCallParameterSet :=
  if contains_dunder name.data then
    .error (entity_format_error_message name)
  else
    .ok { entity_reference := ⟨name⟩,
          entity_path := entity_path.map EntityReference.mk }

/-! ## Expression parser

Modelled from the spec (§4.3): the evaluator treats macro calls as the only
meaningful part of an expression, so an expression is embedded as the ordered
list of its macro invocations (the surrounding literal text is unexamined and
discarded). -/

/-- One macro invocation of the four recognized forms. -/
inductive MacroCall where
  | dimension (name : String) (entity_path : List String)
  | dimensionGrain (name : String) (granularity : String) (entity_path : List String)
  | timeDimension (name : String) (granularity : Option String) (entity_path : List String)
  | entity (name : String) (entity_path : List String)
deriving DecidableEq, Repr

/-- A kind-tagged call parameter set produced by one macro invocation. -/
inductive CallParameterSet where
  | dimension (d : DimensionCallParameterSet)
  | timeDimension (t : TimeDimensionCallParameterSet)
  | entity (e : EntityCallParameterSet)
deriving DecidableEq, Repr

/-- Modelled from the spec (§4.3): convert one macro invocation into the
appropriate call parameter set. A `.grain(...)` chain on `Dimension`
produces a time-dimension call parameter set with the given granularity. -/
def evalCall : MacroCall → Except String CallParameterSet
  | .dimension name entity_path =>
      (create_dimension name entity_path).map .dimension
  | .dimensionGrain name granularity entity_path =>
      (create_time_dimension name (some granularity) entity_path).map .timeDimension
  | .timeDimension name granularity entity_path =>
      (create_time_dimension name granularity entity_path).map .timeDimension
  | .entity name entity_path =>
      (create_entity name entity_path).map .entity

/-- Evaluate every macro invocation in source order; the first error
terminates the expression's parse. -/
def parseCalls : List MacroCall → Except String (List CallParameterSet)
  | [] => .ok []
  | c :: rest => do
    let r ← evalCall c
    let rs ← parseCalls rest
    .ok (r :: rs)

/-- Partition kind-tagged call parameter sets into a `FilterCallParameterSets`,
preserving source order within each kind. -/
def group : List CallParameterSet → FilterCallParameterSets
  | [] => {}
  | .dimension d :: rest =>
      let g := group rest
      { g with dimension_call_parameter_sets := d :: g.dimension_call_parameter_sets }
  | .timeDimension t :: rest =>
      let g := group rest
      { g with time_dimension_call_parameter_sets := t :: g.time_dimension_call_parameter_sets }
  | .entity e :: rest =>
      let g := group rest
      { g with entity_call_parameter_sets := e :: g.entity_call_parameter_sets }

/-- Modelled from the spec (§4.3, §6 `parse`): parse one expression into a
`FilterCallParameterSets`, or fail with a typed parse error; never returns
partial results. -/
def parse (expr : List MacroCall) : Except String FilterCallParameterSets :=
  (parseCalls expr).map group

/-! ## Filter intersection aggregator

Modelled from the spec (§4.4, §6 `parse_intersection`). -/

/-- The error message of a failing expression, `none` for a successful one. -/
def errorOf (expr : List MacroCall) : Option String :=
  match parse expr with
  | .ok _ => none
  | .error m => some m

/-- Modelled from the spec (§4.4): collect the failure message from every
failing expression, in input order; successful expressions contribute
nothing. -/
def collect_errors (exprs : List (List MacroCall)) : List String :=
  exprs.filterMap errorOf

/-- Modelled from the spec (§4.4, §7): one aggregate parse-failure message
enumerating each failing expression's message. -/
def aggregate_error_message (msgs : List String) : String :=
  msgs.foldl (fun acc m => acc ++ "\n" ++ m)
    "Error parsing where filter expressions:"

/-- Parse every expression in input order, pairing each with its result; the
first error terminates (only reached when no expression fails). -/
def parse_all : List (List MacroCall) →
    Except String (List (List MacroCall × FilterCallParameterSets))
  | [] => .ok []
  | e :: rest => do
    let r ← parse e
    let rs ← parse_all rest
    .ok ((e, r) :: rs)

/-- Modelled from the spec (§4.4): parse each expression independently; if any
fails, raise one aggregate error built from every failing expression's
message and return no mapping; otherwise return the order-preserving mapping
from expression to its parameter sets. -/
def parse_intersection (exprs : List (List MacroCall)) :
    Except String (List (List MacroCall × FilterCallParameterSets)) :=
  match collect_errors exprs with
  | [] => parse_all exprs
  | errs => .error (aggregate_error_message errs)

/-- A string `needle` occurs contiguously inside `haystack`. -/
def msg_contains (haystack needle : String) : Prop :=
  needle.data <:+: haystack.data

instance instDecidableMsgContains (h n : String) : Decidable (msg_contains h n) :=
  inferInstanceAs (Decidable (n.data <:+: h.data))

/-! ## Primary entity validation rule (from `validations/primary_entity.py`) -/

/-- The type of an entity (from `type_enums`). -/
inductive EntityType where
  | foreign
  | natural
  | primary
  | unique
deriving DecidableEq, Repr

/-- An entity declared on a semantic model (the fields `PrimaryEntityRule`
reads). -/
structure PydanticEntity where
  name : String
  type : EntityType
deriving DecidableEq, Repr

/-- `PydanticEntity.reference`: the entity's reference is built from its
name. -/
def PydanticEntity.reference (e : PydanticEntity) : EntityReference :=
  ⟨e.name⟩

/-- A dimension declared on a semantic model (only its presence matters to
`PrimaryEntityRule`). -/
structure PydanticDimension where
  name : String
deriving DecidableEq, Repr

/-- A semantic model, restricted to the fields `PrimaryEntityRule` reads
(from `implementations/semantic_model.py`). -/
structure PydanticSemanticModel where
  name : String
  primary_entity : Option String := none
  entities : List PydanticEntity := []
  dimensions : List PydanticDimension := []
deriving DecidableEq, Repr

/-- `PydanticSemanticModel.primary_entity_reference`: an `EntityReference`
built from the `primary_entity` field when it is set. -/
def primary_entity_reference (m : PydanticSemanticModel) : Option EntityReference :=
  m.primary_entity.map EntityReference.mk

/-- A validation issue, reduced to its message and the name of the semantic
model it concerns. -/
structure ValidationIssue where
  message : String
  model_name : String
deriving DecidableEq, Repr

/-- `PrimaryEntityRule._model_requires_primary_entity`: true when the model
has at least one dimension. -/
def model_requires_primary_entity (m : PydanticSemanticModel) : Bool :=
  m.dimensions.length > 0

/-- `PrimaryEntityRule._model_has_entity_with_primary_type`: true when some
entity has primary type. -/
def model_has_entity_with_primary_type (m : PydanticSemanticModel) : Bool :=
  m.entities.any (fun e => e.type == EntityType.primary)

/-- `PrimaryEntityRule._entity_with_primary_type_in_model`: the first entity
with primary type, in declaration order (the Python version raises when there
is none; it is only called when one exists). -/
def entity_with_primary_type_in_model (m : PydanticSemanticModel) :
    Option PydanticEntity :=
  m.entities.find? (fun e => e.type == EntityType.primary)

/-- The second check of `PrimaryEntityRule._check_model`: a model that
requires a primary entity but defines none, neither by field nor by entity
type, yields one error. -/
def check_model_missing_primary (m : PydanticSemanticModel) : List ValidationIssue :=
  if model_requires_primary_entity m && (primary_entity_reference m).isNone
      && !(model_has_entity_with_primary_type m) then
    [⟨"The semantic model " ++ m.name ++
        " contains dimensions, but it does not define a primary entity.",
      m.name⟩]
  else []

/-- `PrimaryEntityRule._check_model`: first, when the `primary_entity` field
is set and some entity has primary type, the first such entity's reference
must match the field; otherwise fall through to the missing-primary check. -/
def check_model (m : PydanticSemanticModel) : List ValidationIssue :=
  match primary_entity_reference m, entity_with_primary_type_in_model m with
  | some pref, some e =>
      if pref != e.reference then
        [⟨"Semantic model " ++ m.name ++ " has an entity named " ++ e.name ++
            " with type primary but it conflicts with the primary_entity field set to " ++
            pref.element_name,
          m.name⟩]
      else
        check_model_missing_primary m
  | _, _ => check_model_missing_primary m

/-- A semantic model whose `primary_entity` field matches the first
primary-type entity but not the second, and which has no dimensions. -/
def two_primary_model : PydanticSemanticModel :=
  { name := "m",
    primary_entity := some "e1",
    entities := [⟨"e1", EntityType.primary⟩, ⟨"e2", EntityType.primary⟩],
    dimensions := [] }

end DbtSemanticInterfaces

deriving instance DecidableEq for Except

namespace DbtSemanticInterfaces

/-! ## Shared helper lemmas -/

/-- The reserved time-axis name has no `__` occurrence, so it splits into a
single segment. -/
theorem split_metric_time : split_on_dunder "metric_time" = ["metric_time"] := by
  decide

/-- `is_metric_time_name` holds exactly on the reserved constant. -/
theorem is_metric_time_name_eq_true {s : String} :
    is_metric_time_name s = true ↔ s = "metric_time" := by
  simp [is_metric_time_name, METRIC_TIME_ELEMENT_NAME]

/-- A name that splits into two segments is not the reserved time-axis
name. -/
theorem is_metric_time_name_eq_false_of_split {s : String} {l : List String}
    (h : split_on_dunder s = l) (hlen : l.length ≠ 1) :
    is_metric_time_name s = false := by
  rcases hb : is_metric_time_name s with _ | _
  · rfl
  · exfalso
    rw [is_metric_time_name_eq_true.mp hb, split_metric_time] at h
    rw [← h] at hlen
    exact hlen rfl

/-- Parsing a single-invocation expression reduces to evaluating that
invocation and wrapping the result. -/
theorem parse_singleton (c : MacroCall) :
    parse [c] = (evalCall c).map (fun r => group [r]) := by
  cases h : evalCall c <;>
    simp [parse, parseCalls, h, Except.map, Bind.bind, Except.bind]

/-! ## Claim theorems -/

/-- C9: `is_metric_time_name` returns true exactly on the string
`"metric_time"`; the comparison is case-sensitive and does not trim, so
`"Metric_Time"` and `" metric_time"` are rejected. -/
theorem C9_is_metric_time_name_exact :
    (∀ s : String, is_metric_time_name s = true ↔ s = "metric_time") ∧
    is_metric_time_name "Metric_Time" = false ∧
    is_metric_time_name " metric_time" = false :=
  ⟨fun _ => is_metric_time_name_eq_true, by decide, by decide⟩

/-- C7: a `TimeDimension` call with no granularity argument (and no
`.grain` chain, which is a distinct macro form) always yields
`time_granularity = none`, with the reference name and entity path still
derived by the usual name splitting and path composition. -/
theorem C7_time_dimension_without_granularity (name : String) (path : List String) :
    parse [.timeDimension name none path] =
      (parse_name name).map (fun p =>
        { time_dimension_call_parameter_sets :=
            [{ time_dimension_reference := ⟨p.1⟩,
               entity_path := composed_entity_path path p.2,
               time_granularity := none }] }) := by
  rw [parse_singleton]
  cases h : parse_name name <;>
    simp [evalCall, create_time_dimension, h, Except.map, Bind.bind, Except.bind,
      group]

/-- C3: a `Dimension` call whose name splits into exactly two segments
`(a, b)` and carries the explicit entity path `[c]` yields a single
`DimensionCallParameterSet` with entity path `(c, a)` — explicit argument
first, implied hop appended after — and leaf element name `b`. -/
theorem C3_dimension_two_segments_with_explicit_path (name a b c : String)
    (h : split_on_dunder name = [a, b]) :
    parse [.dimension name [c]] =
      .ok { dimension_call_parameter_sets :=
              [{ dimension_reference := ⟨b⟩,
                 entity_path := [⟨c⟩, ⟨a⟩] }] } := by
  have hmt : is_metric_time_name name = false :=
    is_metric_time_name_eq_false_of_split h (by simp)
  rw [parse_singleton]
  simp [evalCall, create_dimension, parse_name, hmt, h, composed_entity_path,
    Except.map, Bind.bind, Except.bind, group]

/-- Witness for C3 at the test's input `Dimension('user__country',
entity_path=['listing'])`. -/
theorem C3_witness :
    split_on_dunder "user__country" = ["user", "country"] ∧
    parse [.dimension "user__country" ["listing"]] =
      .ok { dimension_call_parameter_sets :=
              [{ dimension_reference := ⟨"country"⟩,
                 entity_path := [⟨"listing"⟩, ⟨"user"⟩] }] } :=
  ⟨by decide,
   C3_dimension_two_segments_with_explicit_path "user__country" "user" "country"
     "listing" (by decide)⟩

/-- C4: an `Entity` call never splits its name: a name containing the path
separator fails with the entity-name-format error (whose message contains
the offending name), and an atomic name succeeds with the entity path equal
to the explicit argument (hence empty when no argument is given). -/
theorem C4_entity_name_never_split (name : String) (path : List String) :
    parse [.entity name path] =
      (if contains_dunder name.data then
        .error (entity_format_error_message name)
       else
        .ok { entity_call_parameter_sets :=
                [{ entity_reference := ⟨name⟩,
                   entity_path := path.map EntityReference.mk }] }) ∧
    msg_contains (entity_format_error_message name) name := by
  constructor
  · rw [parse_singleton]
    rcases h : contains_dunder name.data with _ | _ <;>
      simp [evalCall, create_entity, h, Except.map, group]
  · refine ⟨("Entity name is in an incorrect format: " ++ "'").data, "'".data, ?_⟩
    simp [entity_format_error_message, String.data_append, List.append_assoc]

/-- C5: a `Dimension` or `TimeDimension` call (granularity or `.grain` chain
included) whose name splits into three or more segments always fails with
the name-format error, whose message contains the offending raw name. -/
theorem C5_three_or_more_segments_fail (name gran : String) (gopt : Option String)
    (path : List String) (h : 3 ≤ (split_on_dunder name).length) :
    parse [.dimension name path] =
      .error (exception_message_for_incorrect_format name) ∧
    parse [.timeDimension name gopt path] =
      .error (exception_message_for_incorrect_format name) ∧
    parse [.dimensionGrain name gran path] =
      .error (exception_message_for_incorrect_format name) ∧
    msg_contains (exception_message_for_incorrect_format name) name := by
  rcases hs : split_on_dunder name with _ | ⟨x, _ | ⟨y, _ | ⟨z, rest⟩⟩⟩ <;>
    rw [hs] at h <;> try simp at h
  have hmt : is_metric_time_name name = false :=
    is_metric_time_name_eq_false_of_split hs (by simp)
  have hpn : parse_name name = .error (exception_message_for_incorrect_format name) := by
    simp [parse_name, hmt, hs]
  refine ⟨?_, ?_, ?_, ?_⟩
  · rw [parse_singleton]
    simp [evalCall, create_dimension, hmt, hpn, Except.map, Bind.bind, Except.bind]
  · rw [parse_singleton]
    simp [evalCall, create_time_dimension, hpn, Except.map, Bind.bind, Except.bind]
  · rw [parse_singleton]
    simp [evalCall, create_time_dimension, hpn, Except.map, Bind.bind, Except.bind]
  · refine ⟨("Name is in an incorrect format: " ++ "'").data,
      ("'" ++ ". It should be of the form: <primary entity name>__<dimension_name>").data, ?_⟩
    simp [exception_message_for_incorrect_format, String.data_append, List.append_assoc]

/-- Witness for C5 at the test's input
`TimeDimension('order_id__order_time__month', 'week')`. -/
theorem C5_witness :
    3 ≤ (split_on_dunder "order_id__order_time__month").length ∧
    (parse [.dimension "order_id__order_time__month" []] =
      .error (exception_message_for_incorrect_format "order_id__order_time__month") ∧
    parse [.timeDimension "order_id__order_time__month" (some "week") []] =
      .error (exception_message_for_incorrect_format "order_id__order_time__month") ∧
    parse [.dimensionGrain "order_id__order_time__month" "week" []] =
      .error (exception_message_for_incorrect_format "order_id__order_time__month") ∧
    msg_contains (exception_message_for_incorrect_format "order_id__order_time__month")
      "order_id__order_time__month") :=
  ⟨by decide,
   C5_three_or_more_segments_fail "order_id__order_time__month" "week" (some "week")
     [] (by decide)⟩

/-- C6: `Dimension(name, entity_path).grain(g)` behaves exactly like
`TimeDimension(name, g, entity_path)`: it yields a single
`TimeDimensionCallParameterSet` with the case-insensitively parsed
granularity and with the entity path derived as for any time dimension; in
particular `Dimension('metric_time').grain('WEEK')` yields
`(metric_time, path = [], granularity = WEEK)`. -/
theorem C6_dimension_grain_chain (name gran : String) (path : List String)
    (leaf : String) (hop : Option String) (gr : TimeGranularity)
    (hn : parse_name name = .ok (leaf, hop))
    (hg : parse_granularity gran = .ok gr) :
    parse [.dimensionGrain name gran path] =
      .ok { time_dimension_call_parameter_sets :=
              [{ time_dimension_reference := ⟨leaf⟩,
                 entity_path := composed_entity_path path hop,
                 time_granularity := some gr }] } ∧
    parse [.dimensionGrain name gran path] =
      parse [.timeDimension name (some gran) path] ∧
    parse [.dimensionGrain "metric_time" "WEEK" []] =
      .ok { time_dimension_call_parameter_sets :=
              [{ time_dimension_reference := ⟨"metric_time"⟩,
                 entity_path := [],
                 time_granularity := some .week }] } := by
  refine ⟨?_, rfl, by decide⟩
  rw [parse_singleton]
  simp [evalCall, create_time_dimension, hn, hg, Except.map, Bind.bind, Except.bind,
    group]

/-- Witness for C6 at the test's input `Dimension('metric_time').grain('WEEK')`. -/
theorem C6_witness :
    parse_name "metric_time" = .ok ("metric_time", none) ∧
    parse_granularity "WEEK" = .ok .week ∧
    (parse [.dimensionGrain "metric_time" "WEEK" []] =
      .ok { time_dimension_call_parameter_sets :=
              [{ time_dimension_reference := ⟨"metric_time"⟩,
                 entity_path := composed_entity_path [] none,
                 time_granularity := some .week }] } ∧
    parse [.dimensionGrain "metric_time" "WEEK" []] =
      parse [.timeDimension "metric_time" (some "WEEK") []] ∧
    parse [.dimensionGrain "metric_time" "WEEK" []] =
      .ok { time_dimension_call_parameter_sets :=
              [{ time_dimension_reference := ⟨"metric_time"⟩,
                 entity_path := [],
                 time_granularity := some .week }] }) :=
  ⟨by decide, by decide,
   C6_dimension_grain_chain "metric_time" "WEEK" [] "metric_time" none .week
     (by decide) (by decide)⟩

/-- Counterexample to C2 as stated: `Dimension('metric_time').grain('WEEK')`
is a `Dimension` macro call with the reserved name chained with `.grain`,
yet it parses successfully (as the repository's own test of the grain chain
requires), so a `Dimension` call on the reserved name does not fail
"regardless of chained calls". -/
theorem C2_counterexample :
    parse [.dimensionGrain "metric_time" "WEEK" []] =
      .ok { time_dimension_call_parameter_sets :=
              [{ time_dimension_reference := ⟨"metric_time"⟩,
                 entity_path := [],
                 time_granularity := some .week }] } := by
  decide

/-- C2 (amended): a plain `Dimension` call (no `.grain` chain) on the
reserved time-axis name always fails with the reserved-usage error, whose
message directs the author to `TimeDimension`, regardless of the entity-path
argument; and `TimeDimension('metric_time', g)` with a valid granularity
literal always succeeds with that granularity and an empty entity path. -/
theorem C2_amended_metric_time_exclusivity (path : List String) (gran : String)
    (gr : TimeGranularity) (hg : parse_granularity gran = .ok gr) :
    parse [.dimension "metric_time" path] = .error metric_time_usage_error_message ∧
    msg_contains metric_time_usage_error_message "TimeDimension" ∧
    parse [.timeDimension "metric_time" (some gran) []] =
      .ok { time_dimension_call_parameter_sets :=
              [{ time_dimension_reference := ⟨"metric_time"⟩,
                 entity_path := [],
                 time_granularity := some gr }] } := by
  refine ⟨?_, by decide, ?_⟩
  · rw [parse_singleton]
    simp [evalCall, create_dimension, is_metric_time_name, METRIC_TIME_ELEMENT_NAME,
      Except.map]
  · rw [parse_singleton]
    simp [evalCall, create_time_dimension, parse_name, is_metric_time_name,
      METRIC_TIME_ELEMENT_NAME, hg, composed_entity_path, Except.map, Bind.bind,
      Except.bind, group]

/-- Folding the aggregate-message accumulator only ever extends the
accumulated string on the right. -/
theorem foldl_message_extends (msgs : List String) (init : String) :
    ∃ post : List Char,
      (msgs.foldl (fun acc m => acc ++ "\n" ++ m) init).data = init.data ++ post := by
  induction msgs generalizing init with
  | nil => exact ⟨[], by simp⟩
  | cons m t ih =>
    obtain ⟨post, hp⟩ := ih (init ++ "\n" ++ m)
    exact ⟨"\n".data ++ m.data ++ post,
      by simp [List.foldl, hp, String.data_append, List.append_assoc]⟩

/-- Every collected failure message occurs contiguously inside the aggregate
error message. -/
theorem mem_msg_contains_aggregate {m : String} {msgs : List String}
    (hm : m ∈ msgs) :
    msg_contains (aggregate_error_message msgs) m := by
  rw [aggregate_error_message]
  generalize "Error parsing where filter expressions:" = init
  induction msgs generalizing init with
  | nil => cases hm
  | cons x t ih =>
    rcases List.mem_cons.mp hm with hm | hm
    · subst hm
      obtain ⟨post, hp⟩ := foldl_message_extends t (init ++ "\n" ++ m)
      exact ⟨init.data ++ "\n".data, post,
        by simp [List.foldl, hp, String.data_append, List.append_assoc]⟩
    · exact ih hm (init ++ "\n" ++ x)

/-- When no expression fails, parsing all of them pairs each expression, in
input order, with its independent parse result. -/
theorem parse_all_ok (exprs : List (List MacroCall))
    (h : ∀ e ∈ exprs, ∃ r, parse e = .ok r) :
    ∃ l, parse_all exprs = .ok l ∧ l.map Prod.fst = exprs ∧
      ∀ p ∈ l, parse p.1 = .ok p.2 := by
  induction exprs with
  | nil => exact ⟨[], rfl, rfl, by simp⟩
  | cons e t ih =>
    obtain ⟨r, hr⟩ := h e (by simp)
    obtain ⟨l, hl, hmap, hall⟩ := ih (fun x hx => h x (by simp [hx]))
    refine ⟨(e, r) :: l, ?_, by simp [hmap], ?_⟩
    · simp [parse_all, hr, hl, Bind.bind, Except.bind]
    · intro p hp
      rcases List.mem_cons.mp hp with hp | hp
      · subst hp; exact hr
      · exact hall p hp

/-- C1: when at least one expression fails, `parse_intersection` raises the
single aggregate error built from the failing expressions' messages — no
mapping is returned — the aggregate message contains every failing
expression's message, and it is a function of the failing messages alone, so
content of successfully-parsing expressions cannot appear through any input
with the same failures. -/
theorem C1_aggregate_error_collection (exprs : List (List MacroCall))
    (h : ∃ e ∈ exprs, ∃ m, parse e = .error m) :
    parse_intersection exprs =
      .error (aggregate_error_message (collect_errors exprs)) ∧
    (∀ e ∈ exprs, ∀ m, parse e = .error m →
      msg_contains (aggregate_error_message (collect_errors exprs)) m) ∧
    (∀ exprs₂ : List (List MacroCall),
      collect_errors exprs₂ = collect_errors exprs →
      parse_intersection exprs₂ = parse_intersection exprs) := by
  have hne : collect_errors exprs ≠ [] := by
    obtain ⟨e, he, m, hm⟩ := h
    intro hnil
    rw [collect_errors, List.filterMap_eq_nil_iff] at hnil
    have hcontra := hnil e he
    rw [errorOf, hm] at hcontra
    cases hcontra
  rcases hc : collect_errors exprs with _ | ⟨a, as⟩
  · exact absurd hc hne
  refine ⟨by simp [parse_intersection, hc], ?_, ?_⟩
  · intro e he m hm
    have hmem : m ∈ collect_errors exprs := by
      rw [collect_errors, List.mem_filterMap]
      exact ⟨e, he, by rw [errorOf, hm]⟩
    rw [hc] at hmem
    exact mem_msg_contains_aggregate hmem
  · intro exprs₂ h2
    simp [parse_intersection, h2, hc]

/-- Witness for C1 at the error-collection test's three filters: a
three-segment time dimension (fails), a valid dimension, and a malformed
entity name (fails). -/
theorem C1_witness :
    (∃ e ∈ ([[MacroCall.timeDimension "order_id__order_time__month" (some "week") []],
             [MacroCall.dimension "customer__has_delivery_address" []],
             [MacroCall.entity "order_id__is_food_order" []]] :
        List (List MacroCall)), ∃ m, parse e = .error m) ∧
    (parse_intersection
        [[MacroCall.timeDimension "order_id__order_time__month" (some "week") []],
         [MacroCall.dimension "customer__has_delivery_address" []],
         [MacroCall.entity "order_id__is_food_order" []]] =
      .error (aggregate_error_message (collect_errors
        [[MacroCall.timeDimension "order_id__order_time__month" (some "week") []],
         [MacroCall.dimension "customer__has_delivery_address" []],
         [MacroCall.entity "order_id__is_food_order" []]])) ∧
    (∀ e ∈ ([[MacroCall.timeDimension "order_id__order_time__month" (some "week") []],
             [MacroCall.dimension "customer__has_delivery_address" []],
             [MacroCall.entity "order_id__is_food_order" []]] :
        List (List MacroCall)), ∀ m, parse e = .error m →
      msg_contains (aggregate_error_message (collect_errors
        [[MacroCall.timeDimension "order_id__order_time__month" (some "week") []],
         [MacroCall.dimension "customer__has_delivery_address" []],
         [MacroCall.entity "order_id__is_food_order" []]])) m) ∧
    (∀ exprs₂ : List (List MacroCall),
      collect_errors exprs₂ = collect_errors
        [[MacroCall.timeDimension "order_id__order_time__month" (some "week") []],
         [MacroCall.dimension "customer__has_delivery_address" []],
         [MacroCall.entity "order_id__is_food_order" []]] →
      parse_intersection exprs₂ = parse_intersection
        [[MacroCall.timeDimension "order_id__order_time__month" (some "week") []],
         [MacroCall.dimension "customer__has_delivery_address" []],
         [MacroCall.entity "order_id__is_food_order" []]])) := by
  have h : ∃ e ∈ ([[MacroCall.timeDimension "order_id__order_time__month" (some "week") []],
             [MacroCall.dimension "customer__has_delivery_address" []],
             [MacroCall.entity "order_id__is_food_order" []]] :
        List (List MacroCall)), ∃ m, parse e = .error m :=
    ⟨[MacroCall.entity "order_id__is_food_order" []], by decide,
     entity_format_error_message "order_id__is_food_order", by decide⟩
  exact ⟨h, C1_aggregate_error_collection _ h⟩

/-- C8: when every expression parses successfully, `parse_intersection`
returns a mapping with exactly one entry per input expression, keyed by the
expression, in input order, each entry's value being that expression's
independent parse result. -/
theorem C8_all_valid_ordered_mapping (exprs : List (List MacroCall))
    (h : ∀ e ∈ exprs, ∃ r, parse e = .ok r) :
    ∃ l, parse_intersection exprs = .ok l ∧
      l.map Prod.fst = exprs ∧
      ∀ p ∈ l, parse p.1 = .ok p.2 := by
  have hc : collect_errors exprs = [] := by
    rw [collect_errors, List.filterMap_eq_nil_iff]
    intro e he
    obtain ⟨r, hr⟩ := h e he
    rw [errorOf, hr]
  obtain ⟨l, hl, hmap, hall⟩ := parse_all_ok exprs h
  exact ⟨l, by simp [parse_intersection, hc, hl], hmap, hall⟩

/-- Witness for C8 at the intersection test's two valid filters. -/
theorem C8_witness :
    (∀ e ∈ ([[MacroCall.timeDimension "metric_time" (some "month") []],
             [MacroCall.entity "listing" [], MacroCall.entity "user" ["listing"]]] :
        List (List MacroCall)), ∃ r, parse e = .ok r) ∧
    (∃ l, parse_intersection
        [[MacroCall.timeDimension "metric_time" (some "month") []],
         [MacroCall.entity "listing" [], MacroCall.entity "user" ["listing"]]] = .ok l ∧
      l.map Prod.fst =
        [[MacroCall.timeDimension "metric_time" (some "month") []],
         [MacroCall.entity "listing" [], MacroCall.entity "user" ["listing"]]] ∧
      ∀ p ∈ l, parse p.1 = .ok p.2) := by
  have h : ∀ e ∈ ([[MacroCall.timeDimension "metric_time" (some "month") []],
             [MacroCall.entity "listing" [], MacroCall.entity "user" ["listing"]]] :
        List (List MacroCall)), ∃ r, parse e = .ok r := by
    intro e he
    simp only [List.mem_cons, List.mem_singleton] at he
    rcases he with rfl | rfl | he
    · exact ⟨_, rfl⟩
    · exact ⟨_, rfl⟩
    · cases he
  exact ⟨h, C8_all_valid_ordered_mapping _ h⟩

/-- Witness for the amended C2 at the test's inputs
`Dimension('metric_time')` and `TimeDimension('metric_time', 'month')`. -/
theorem C2_amended_witness :
    parse_granularity "month" = .ok .month ∧
    (parse [.dimension "metric_time" ["listing"]] =
      .error metric_time_usage_error_message ∧
    msg_contains metric_time_usage_error_message "TimeDimension" ∧
    parse [.timeDimension "metric_time" (some "month") []] =
      .ok { time_dimension_call_parameter_sets :=
              [{ time_dimension_reference := ⟨"metric_time"⟩,
                 entity_path := [],
                 time_granularity := some .month }] }) :=
  ⟨by decide,
   C2_amended_metric_time_exclusivity ["listing"] "month" .month (by decide)⟩

/-- A model has some primary-type entity exactly when the first-primary
lookup finds one. -/
theorem has_primary_eq_isSome (m : PydanticSemanticModel) :
    model_has_entity_with_primary_type m =
      (entity_with_primary_type_in_model m).isSome := by
  rw [model_has_entity_with_primary_type, entity_with_primary_type_in_model]
  induction m.entities with
  | nil => rfl
  | cons a t ih =>
    by_cases h : a.type == EntityType.primary
    · simp [List.any_cons, h, List.find?_cons_of_pos]
    · simp only [Bool.not_eq_true] at h
      simp [List.any_cons, h, List.find?_cons_of_neg, ih]

/-- Counterexample to C10 as stated: a model whose `primary_entity` field
matches the first primary-type entity but not the second satisfies the
claim's condition (a) — it contains a primary-type entity whose reference
differs from the field — yet `_check_model` compares only the first
primary-type entity and returns no issue. -/
theorem C10_counterexample :
    check_model two_primary_model = [] ∧
    two_primary_model.primary_entity.isSome = true ∧
    (∃ e ∈ two_primary_model.entities, e.type = EntityType.primary ∧
      some e.reference ≠ primary_entity_reference two_primary_model) := by
  decide

/-- C10 (amended): `_check_model` returns a non-empty sequence of issues
exactly when either (a) the `primary_entity` field is set, the model has a
primary-type entity, and the FIRST such entity's reference differs from the
field, or (b) the model has at least one dimension but neither a
`primary_entity` field nor any primary-type entity; in every other case it
returns no issues. -/
theorem C10_amended_primary_entity_rule (m : PydanticSemanticModel) :
    check_model m ≠ [] ↔
      ((∃ pref e, primary_entity_reference m = some pref ∧
          entity_with_primary_type_in_model m = some e ∧ pref ≠ e.reference) ∨
       (m.dimensions ≠ [] ∧ m.primary_entity = none ∧
          ∀ e ∈ m.entities, e.type ≠ EntityType.primary)) := by
  rcases hp : primary_entity_reference m with _ | pref <;>
    rcases he : entity_with_primary_type_in_model m with _ | e
  · -- no primary_entity field, no primary-type entity
    have hpe : m.primary_entity = none := Option.map_eq_none'.mp hp
    have hhas : model_has_entity_with_primary_type m = false := by
      rw [has_primary_eq_isSome, he]; rfl
    have hall : ∀ x ∈ m.entities, x.type ≠ EntityType.primary := by
      intro x hx
      have hfx := List.find?_eq_none.mp he x hx
      simpa using hfx
    by_cases hd : m.dimensions = []
    · have hcm : check_model m = [] := by
        simp [check_model, hp, he, check_model_missing_primary,
          model_requires_primary_entity, hd]
      rw [hcm]
      constructor
      · intro hfalse
        exact absurd rfl hfalse
      · rintro (⟨pref, e', hpe', -, -⟩ | ⟨hd', -, -⟩)
        · exact absurd hpe' (by simp)
        · exact absurd hd hd'
    · have hlen : 0 < m.dimensions.length := List.length_pos.mpr hd
      have hcm : check_model m ≠ [] := by
        simp [check_model, hp, he, check_model_missing_primary,
          model_requires_primary_entity, hhas, hlen]
      constructor
      · intro _
        exact Or.inr ⟨hd, hpe, hall⟩
      · intro _
        exact hcm
  · -- no primary_entity field, but a primary-type entity exists
    have hhas : model_has_entity_with_primary_type m = true := by
      rw [has_primary_eq_isSome, he]; rfl
    have hmem : e ∈ m.entities := List.mem_of_find?_eq_some he
    have htype : e.type = EntityType.primary := by
      have hfx := List.find?_some he
      simpa using hfx
    have hcm : check_model m = [] := by
      simp [check_model, hp, he, check_model_missing_primary, hhas]
    rw [hcm]
    constructor
    · intro hfalse
      exact absurd rfl hfalse
    · rintro (⟨pref, e', hpe', -, -⟩ | ⟨-, -, hall⟩)
      · exact absurd hpe' (by simp)
      · exact absurd htype (hall e hmem)
  · -- primary_entity field set, no primary-type entity
    have hpe : m.primary_entity ≠ none := by
      intro hc
      rw [primary_entity_reference, hc] at hp
      exact absurd hp (by simp)
    have hcm : check_model m = [] := by
      simp [check_model, hp, he, check_model_missing_primary]
    rw [hcm]
    constructor
    · intro hfalse
      exact absurd rfl hfalse
    · rintro (⟨pref', e', -, he', -⟩ | ⟨-, hpn, -⟩)
      · exact absurd he' (by simp)
      · exact absurd hpn hpe
  · -- primary_entity field set and a primary-type entity exists
    have hpe : m.primary_entity ≠ none := by
      intro hc
      rw [primary_entity_reference, hc] at hp
      exact absurd hp (by simp)
    by_cases hne : pref = e.reference
    · have hcm : check_model m = [] := by
        simp [check_model, hp, he, hne, check_model_missing_primary]
      rw [hcm]
      constructor
      · intro hfalse
        exact absurd rfl hfalse
      · rintro (⟨pref', e', hpe', he', hne'⟩ | ⟨-, hpn, -⟩)
        · obtain rfl := Option.some_inj.mp hpe'
          obtain rfl := Option.some_inj.mp he'
          exact absurd hne hne'
        · exact absurd hpn hpe
    · have hbne : (pref != e.reference) = true := bne_iff_ne.mpr hne
      constructor
      · intro _
        exact Or.inl ⟨pref, e, rfl, rfl, hne⟩
      · intro _
        simp [check_model, hp, he, hbne]

end DbtSemanticInterfaces
